import Mathlib

/-!
Verification development for the recommender-system training notebook
(train.ipynb).  The notebook is shallowly embedded: tensors of scores and
ratings become lists of rationals, the learned recommender model and the
external metric routines (roc_auc_score and the loss functions, which live
in outside libraries) become function parameters, and the two numpy arrays
user_item_ratings / true_item_ratings (allocated with np.empty, hence
initially holding arbitrary garbage) become functions from a user id to a
row, with the garbage contents taken as parameters.

The per-user loop of RecommenderModule.eval_step is embedded as a
structurally recursive loop that threads the array state and the state of
the python local variable roc_auc (an Option, none while unassigned) and
records, for each iteration, the observable outcome of building the
log_dict: either a record of the logged quantities, or the NameError that
python raises when the dict mentions the never-assigned roc_auc.  The
NameError is uncaught, so it aborts eval_step: the loop stops at the first
nameError outcome, the array writes of the failing iteration (which python
performs before building the dict) are kept, and users after the failure
are never processed, leaving their np.empty garbage rows in place.
-/

/-- Rating formats from the dataset module, as used by the notebook. -/
inductive RatingFormat where
  | BINARY
  | RATING
deriving DecidableEq, Repr

/-- Model architectures from the models module.  The notebook only ever
names MATRIX_FACTORIZATION; every other architecture is abstracted into a
single alternative constructor, which is all the loss-selection logic
inspects. -/
inductive ModelArchitecture where
  | MATRIX_FACTORIZATION
  | OTHER
deriving DecidableEq, Repr

/-- The two loss-function objects RecommenderModule.__init__ can assign to
self.loss_fn. -/
inductive LossKind where
  | BCE
  | MSE
deriving DecidableEq, Repr

/-- The state RecommenderModule.__init__ establishes that later steps read:
the selected loss function and the wandb flag. -/
structure RecommenderModule where
  lossFn : LossKind
  useWandb : Bool
deriving DecidableEq, Repr

/-- RecommenderModule.__init__: BCELoss when the rating format is BINARY
and the architecture is not MATRIX_FACTORIZATION, otherwise MSELoss. -/
def RecommenderModule.init (ratingFormat : RatingFormat)
    (modelArchitecture : ModelArchitecture) (useWandb : Bool) :
    RecommenderModule :=
  if ratingFormat = RatingFormat.BINARY ∧
      modelArchitecture ≠ ModelArchitecture.MATRIX_FACTORIZATION then
    { lossFn := LossKind.BCE, useWandb := useWandb }
  else
    { lossFn := LossKind.MSE, useWandb := useWandb }

/-- A training batch: a feature matrix and the ground-truth ratings. -/
structure TrainBatch where
  features : List (List ℚ)
  ratings : List ℚ
deriving DecidableEq, Repr

/-- A wandb.log call made by training_step. -/
inductive WandbLog where
  | trainLoss (value : ℚ)
deriving DecidableEq, Repr

/-- torch .squeeze() applied to the (n, 1) prediction tensor returned by
the recommender: dropping the size-one axis is exactly flattening. -/
def squeezeCol (t : List (List ℚ)) : List ℚ := t.flatten

/-- The observable outcome of RecommenderModule.training_step: the returned
loss, the wandb.log calls made, and the batch object as it stands after the
step (the step only reads the batch). -/
structure TrainStepResult where
  loss : ℚ
  logs : List WandbLog
  batchAfter : TrainBatch
deriving DecidableEq, Repr

/-- RecommenderModule.training_step: unpack the ratings, run the
recommender on the batch, squeeze, apply self.loss_fn to predictions and
ratings, optionally wandb.log the loss, return the loss. -/
def training_step (lossFn : List ℚ → List ℚ → ℚ)
    (recommender : TrainBatch → List (List ℚ)) (useWandb : Bool)
    (batch : TrainBatch) : TrainStepResult :=
  let preds := squeezeCol (recommender batch)
  let loss := lossFn preds batch.ratings
  { loss := loss
    logs := if useWandb then [WandbLog.trainLoss loss] else []
    batchAfter := batch }

/-- An evaluation batch: row r pairs user (users r) with item (items r) and
ground-truth rating (ratings r); users and items are the first two feature
columns of the batch. -/
structure EvalBatch where
  users : List Nat
  items : List Nat
  ratings : List ℚ
deriving DecidableEq, Repr

/-- max_user_id = int(users.max().item() + 1). -/
def maxUserId (b : EvalBatch) : Nat := b.users.foldr max 0 + 1

/-- Ranking order on (index, score) pairs: a ranks no later than b when a
has the strictly higher score, or the scores tie and a has the lower
index.  This is a total order with no ties between distinct pairs, so the
sorted order is unique. -/
def rankLE (a b : Nat × ℚ) : Bool :=
  decide (b.2 < a.2 ∨ (a.2 = b.2 ∧ a.1 ≤ b.1))

/-- Insertion step of the ranking sort. -/
def insertRank (x : Nat × ℚ) : List (Nat × ℚ) → List (Nat × ℚ)
  | [] => [x]
  | y :: ys => if rankLE x y then x :: y :: ys else y :: insertRank x ys

/-- Insertion sort by the ranking order. -/
def sortRank : List (Nat × ℚ) → List (Nat × ℚ)
  | [] => []
  | x :: xs => insertRank x (sortRank xs)

/-- torch.topk(xs, k).indices: the indices of the k largest entries of xs,
largest first, score ties resolved towards the lower index. -/
def topkIndices (k : Nat) (xs : List ℚ) : List Nat :=
  ((sortRank xs.enum).map Prod.fst).take k

/-- Numpy assignment of a row of indices into a float array: the indices
are stored as floats. -/
def natsToFloats (l : List Nat) : List ℚ := l.map (fun j => (j : ℚ))

/-- Assignment arr[u] = v on a row-indexed array. -/
def writeRow (rows : Nat → List ℚ) (u : Nat) (v : List ℚ) :
    Nat → List ℚ :=
  fun w => if w = u then v else rows w

/-- The flat list comprehension [p for sublist in arr for p in sublist]
over an array with n rows. -/
def flattenRows (rows : Nat → List ℚ) (n : Nat) : List ℚ :=
  ((List.range n).map rows).flatten

/-- numpy astype(bool): an entry maps to true exactly when it is nonzero. -/
def toBools (xs : List ℚ) : List Bool := xs.map (fun x => decide (x ≠ 0))

/-- len(np.unique(bs)) == 2 for a boolean array: both classes occur. -/
def hasBothClasses (bs : List Bool) : Bool := bs.contains true && bs.contains false

/-- The mutable state of eval_step across the per-user loop: the two numpy
arrays (np.empty allocated, so the initial rows are arbitrary garbage) and
the python local roc_auc, none while still unassigned. -/
structure EvalArrays where
  userItemRatings : Nat → List ℚ
  trueItemRatings : Nat → List ℚ
  rocAuc : Option ℚ

/-- The observable outcome of one iteration of the per-user loop of
eval_step: either the log_dict is built (recording the eval loss, the two
argument arrays passed to ndcg_score, and the roc_auc value logged), or
building it raises NameError because roc_auc was never assigned.  The
novelty, coverage and personalization entries are computed at the same
point by external metric routines and do not affect control flow, so they
are not recorded. -/
inductive IterResult where
  | nameError
  | logged (evalLoss : ℚ) (ndcgPreds : List ℚ) (ndcgRef : List ℚ) (rocAuc : ℚ)
deriving DecidableEq, Repr

/-- One iteration of the per-user loop of eval_step for user userId:
score every item of the batch for this user, take the top-k indices, write
them into user_item_ratings[userId]; take the top-k indices of the whole
ratings tensor and write them into true_item_ratings[userId]; flatten
user_item_ratings into user_rating_preds and, by the same comprehension
over the same array, into user_rating_ref; cast both to bool; assign
roc_auc only when both boolean arrays contain both classes; finally build
the log_dict, which raises NameError when roc_auc is still unassigned. -/
def evalIter (recommender : Nat → Nat → ℚ)
    (rocAucScore : List Bool → List Bool → ℚ) (b : EvalBatch) (k : Nat)
    (evalLoss : ℚ) (st : EvalArrays) (userId : Nat) :
    EvalArrays × IterResult :=
  let userPreds := b.items.map (recommender userId)
  let topKPreds := topkIndices k userPreds
  let uir := writeRow st.userItemRatings userId (natsToFloats topKPreds)
  let trueTopK := topkIndices k b.ratings
  let tir := writeRow st.trueItemRatings userId (natsToFloats trueTopK)
  let userRatingPreds := flattenRows uir (maxUserId b)
  let userRatingRef := flattenRows uir (maxUserId b)
  let refBool := toBools userRatingRef
  let predsBool := toBools userRatingPreds
  let rocAuc :=
    if hasBothClasses refBool && hasBothClasses predsBool then
      some (rocAucScore refBool predsBool)
    else st.rocAuc
  let st' : EvalArrays := ⟨uir, tir, rocAuc⟩
  (st',
    match rocAuc with
    | none => IterResult.nameError
    | some r => IterResult.logged evalLoss userRatingPreds userRatingRef r)

/-- The per-user loop of eval_step, recording each iteration outcome in
order.  The uncaught NameError aborts eval_step, so the loop stops at the
first nameError outcome: the failing iteration keeps its array writes
(python performs them before building the log_dict), its nameError is the
last recorded outcome, and no later user is processed. -/
def evalLoop (recommender : Nat → Nat → ℚ)
    (rocAucScore : List Bool → List Bool → ℚ) (b : EvalBatch) (k : Nat)
    (evalLoss : ℚ) (st : EvalArrays) :
    List Nat → EvalArrays × List IterResult
  | [] => (st, [])
  | u :: us =>
    let step := evalIter recommender rocAucScore b k evalLoss st u
    if step.2 = IterResult.nameError then
      (step.1, [IterResult.nameError])
    else
      let rest := evalLoop recommender rocAucScore b k evalLoss step.1 us
      (rest.1, step.2 :: rest.2)

/-- RecommenderModule.eval_step: compute the eval loss of the batch, then
run the per-user loop over the users column, starting from the np.empty
garbage arrays and an unassigned roc_auc; the loop aborts at the first
NameError, so the outcome list covers exactly the processed prefix of the
users column. -/
def eval_step (lossFn : List ℚ → List ℚ → ℚ) (recommender : Nat → Nat → ℚ)
    (rocAucScore : List Bool → List Bool → ℚ) (b : EvalBatch) (k : Nat)
    (garbageUIR garbageTIR : Nat → List ℚ) : EvalArrays × List IterResult :=
  let preds := (b.users.zip b.items).map (fun p => recommender p.1 p.2)
  let evalLoss := lossFn preds b.ratings
  evalLoop recommender rocAucScore b k evalLoss
    ⟨garbageUIR, garbageTIR, none⟩ b.users

/-- Written from the claim wording, for comparison with the code: the
ground truth for user u would be the k batch rows rated highest among the
rows that belong to user u (indices into the batch, highest rating first,
ties towards the lower index). -/
def claimPerUserTopK (b : EvalBatch) (k : Nat) (u : Nat) : List Nat :=
  ((sortRank ((b.ratings.enum).filter
      (fun p => decide (b.users.getD p.1 (u + 1) = u)))).map Prod.fst).take k

/-- Property of an iteration outcome: whenever the log_dict was built, the
two arrays passed to ndcg_score were equal. -/
def ndcgArgsEqual : IterResult → Prop
  | IterResult.nameError => True
  | IterResult.logged _ p r _ => p = r

instance : DecidablePred ndcgArgsEqual := by
  intro e
  cases e with
  | nameError => exact isTrue trivial
  | logged L p r a => exact (inferInstance : Decidable (p = r))

/-- Events of the driver cell, in the order python executes them.  Dataset
construction covers the dataset, the random split and the two dataloaders;
each epoch event stands for one training epoch over the training
dataloader. -/
inductive DriverEvent where
  | constructDataset
  | constructModel
  | constructModule
  | wandbInit
  | constructOptimizer
  | constructScheduler
  | runEpoch (i : Nat)
deriving DecidableEq, Repr

/-- The construction part of the driver cell, in execution order: dataset
(with split and dataloaders), model, RecommenderModule, wandb.init guarded
by use_wandb, AdamW optimizer, cosine-annealing scheduler. -/
def constructionTrace (useWandb : Bool) : List DriverEvent :=
  [DriverEvent.constructDataset, DriverEvent.constructModel,
    DriverEvent.constructModule]
  ++ (if useWandb then [DriverEvent.wandbInit] else [])
  ++ [DriverEvent.constructOptimizer, DriverEvent.constructScheduler]

/-- Modelled from the spec: the epoch loop of the driver is not part of the
notebook in the repository (the driver cell ends after constructing the
scheduler); the spec says the driver wires the components together, runs
epochs, and optionally logs to an external tracker.  The driver trace is
therefore the construction sequence of the driver cell followed by
Params.num_epochs training epochs. -/
def driverTrace (useWandb : Bool) (numEpochs : Nat) : List DriverEvent :=
  constructionTrace useWandb ++ (List.range numEpochs).map DriverEvent.runEpoch

/-- Whether a driver event is a training epoch. -/
def isEpochEvent : DriverEvent → Bool
  | DriverEvent.runEpoch _ => true
  | _ => false

/-- Whether a driver event constructs one of the five components (dataset,
model, module, optimizer, scheduler). -/
def isConstructEvent : DriverEvent → Bool
  | DriverEvent.constructDataset => true
  | DriverEvent.constructModel => true
  | DriverEvent.constructModule => true
  | DriverEvent.constructOptimizer => true
  | DriverEvent.constructScheduler => true
  | _ => false

/-- An embedding-table model as get_feature_embeddings sees it: the list of
embedded feature columns, the embedding table of each column (an id maps to
a learned vector), and the flattened embedding width emb_in_size. -/
structure EmbModel (κ : Type) (α : Type) where
  embColumns : List κ
  embDict : κ → Nat → List α
  embInSize : Nat

/-- The list named embeddings that the loop of get_feature_embeddings
builds: for the i-th feature column, the embedded column, one embedding
vector per example (features[:, i] looked up in the table of that
column). -/
def featureEmbeddings (M : EmbModel κ α) (features : List (List Nat)) :
    List (List (List α)) :=
  M.embColumns.enum.map
    (fun p => features.map (fun row => M.embDict p.2 (row.getD p.1 0)))

/-- torch.stack(ts, dim=1) on a list of (n, d) tensors: the output has one
row per example, whose i-th entry is the row of the i-th stacked tensor for
that example. -/
def stackDim1 (ts : List (List (List α))) : List (List (List α)) :=
  (List.range (ts.headD []).length).map (fun r => ts.map (fun t => t.getD r []))

/-- torch view(-1, c): reinterpret the row-major flattening of a tensor as
rows of length c. -/
def viewRows : Nat → List α → List (List α)
  | 0, _ => []
  | _, [] => []
  | c + 1, x :: xs =>
    (x :: xs).take (c + 1) :: viewRows (c + 1) ((x :: xs).drop (c + 1))
termination_by _ xs => xs.length
decreasing_by
  simp only [List.drop_succ_cons, List.length_drop, List.length_cons]
  omega

/-- get_feature_embeddings with concat=True: embed every feature column,
stack along dim 1, squeeze, and view(-1, emb_in_size).  The squeeze only
drops size-one axes and never reorders the underlying data, so the result
is the row-major flattening of the stacked tensor re-chunked into rows of
emb_in_size. -/
def get_feature_embeddings (M : EmbModel κ α) (features : List (List Nat)) :
    List (List α) :=
  viewRows M.embInSize (stackDim1 (featureEmbeddings M features)).flatten.flatten

/-- get_feature_embeddings with concat=False: the stacked (and squeezed)
per-feature embeddings; squeezing only affects axes of size one, so the
content is the stacked tensor. -/
def get_feature_embeddings_noconcat (M : EmbModel κ α)
    (features : List (List Nat)) : List (List (List α)) :=
  stackDim1 (featureEmbeddings M features)

/-- A concrete two-user evaluation batch: row 0 is user 0 rating item 10
with 1, row 1 is user 1 rating item 11 with 5. -/
def batchA : EvalBatch := ⟨[0, 1], [10, 11], [1, 5]⟩

/-- A concrete recommender: user 0 scores item 10 highest, user 1 scores
item 11 highest. -/
def recA : Nat → Nat → ℚ := fun u i =>
  if u = 0 then (if i = 10 then 5 else 1) else (if i = 11 then 5 else 1)

/-- A concrete stand-in for the external roc_auc_score. -/
def rocA : List Bool → List Bool → ℚ := fun _ _ => 1 / 2

/-- A concrete stand-in for the loss function. -/
def lossA : List ℚ → List ℚ → ℚ := fun _ _ => 0

/-- Concrete np.empty garbage: every row reads [3] until overwritten. -/
def garbA : Nat → List ℚ := fun _ => [3]

/-- A concrete single-user evaluation batch. -/
def batchB : EvalBatch := ⟨[0], [10], [1]⟩

/-- Concrete np.empty garbage for the single-user batch. -/
def garbB : Nat → List ℚ := fun _ => [1]

/-- A concrete embedding model with two feature columns (named 0 and 1) and
embedding dimension 2: id j of column c embeds to the vector [c, j]. -/
def embModelA : EmbModel Nat ℚ :=
  ⟨[0, 1], fun c id => [(c : ℚ), (id : ℚ)], 4⟩

/-- A concrete feature matrix with two examples and two feature columns. -/
def featuresA : List (List Nat) := [[7, 9], [8, 6]]

/-- Whether a recorded outcome list contains the NameError abort. -/
def hasNameError (rs : List IterResult) : Bool :=
  rs.any (fun r => decide (r = IterResult.nameError))

/-- Concrete np.empty garbage for user_item_ratings that makes the first
flattened prediction array of batchA single-class ([0, 0]), so the guard
fails and the first iteration raises NameError. -/
def gUC : Nat → List ℚ := fun _ => [0]

/-- Concrete np.empty garbage for true_item_ratings, distinguishable from
any written ground-truth row of batchA. -/
def gTC : Nat → List ℚ := fun _ => [9]

theorem evalIter_fst (rec : Nat → Nat → ℚ) (roc : List Bool → List Bool → ℚ)
    (b : EvalBatch) (k : Nat) (L : ℚ) (st : EvalArrays) (u : Nat) :
    (evalIter rec roc b k L st u).1 =
      ⟨writeRow st.userItemRatings u
          (natsToFloats (topkIndices k (b.items.map (rec u)))),
        writeRow st.trueItemRatings u (natsToFloats (topkIndices k b.ratings)),
        (evalIter rec roc b k L st u).1.rocAuc⟩ := rfl

theorem evalIter_uir_pres (rec : Nat → Nat → ℚ)
    (roc : List Bool → List Bool → ℚ) (b : EvalBatch) (k : Nat) (L : ℚ)
    (st : EvalArrays) (v u : Nat)
    (h : st.userItemRatings u
      = natsToFloats (topkIndices k (b.items.map (rec u)))) :
    (evalIter rec roc b k L st v).1.userItemRatings u
      = natsToFloats (topkIndices k (b.items.map (rec u))) := by
  rw [evalIter_fst]
  show writeRow st.userItemRatings v
    (natsToFloats (topkIndices k (b.items.map (rec v)))) u = _
  unfold writeRow
  by_cases hv : u = v
  · simp [hv]
  · simp [hv, h]

theorem evalIter_tir_pres (rec : Nat → Nat → ℚ)
    (roc : List Bool → List Bool → ℚ) (b : EvalBatch) (k : Nat) (L : ℚ)
    (st : EvalArrays) (v u : Nat)
    (h : st.trueItemRatings u = natsToFloats (topkIndices k b.ratings)) :
    (evalIter rec roc b k L st v).1.trueItemRatings u
      = natsToFloats (topkIndices k b.ratings) := by
  rw [evalIter_fst]
  show writeRow st.trueItemRatings v
    (natsToFloats (topkIndices k b.ratings)) u = _
  unfold writeRow
  by_cases hv : u = v
  · simp [hv]
  · simp [hv, h]

theorem evalLoop_cons_error (rec : Nat → Nat → ℚ)
    (roc : List Bool → List Bool → ℚ) (b : EvalBatch) (k : Nat) (L : ℚ)
    (st : EvalArrays) (v : Nat) (vs : List Nat)
    (h : (evalIter rec roc b k L st v).2 = IterResult.nameError) :
    evalLoop rec roc b k L st (v :: vs)
      = ((evalIter rec roc b k L st v).1, [IterResult.nameError]) := by
  simp only [evalLoop]
  rw [if_pos h]

theorem evalLoop_cons_ok (rec : Nat → Nat → ℚ)
    (roc : List Bool → List Bool → ℚ) (b : EvalBatch) (k : Nat) (L : ℚ)
    (st : EvalArrays) (v : Nat) (vs : List Nat)
    (h : (evalIter rec roc b k L st v).2 ≠ IterResult.nameError) :
    evalLoop rec roc b k L st (v :: vs)
      = ((evalLoop rec roc b k L (evalIter rec roc b k L st v).1 vs).1,
          (evalIter rec roc b k L st v).2 ::
            (evalLoop rec roc b k L (evalIter rec roc b k L st v).1 vs).2) := by
  simp only [evalLoop]
  rw [if_neg h]

theorem evalLoop_length_ok (rec : Nat → Nat → ℚ)
    (roc : List Bool → List Bool → ℚ) (b : EvalBatch) (k : Nat) (L : ℚ)
    (st : EvalArrays) (us : List Nat)
    (hok : hasNameError (evalLoop rec roc b k L st us).2 = false) :
    (evalLoop rec roc b k L st us).2.length = us.length := by
  induction us generalizing st with
  | nil => rfl
  | cons v vs ih =>
    by_cases herr : (evalIter rec roc b k L st v).2 = IterResult.nameError
    · rw [evalLoop_cons_error rec roc b k L st v vs herr] at hok
      simp [hasNameError] at hok
    · rw [evalLoop_cons_ok rec roc b k L st v vs herr] at hok ⊢
      simp only [hasNameError, List.any_cons, Bool.or_eq_false_iff,
        decide_eq_false_iff_not] at hok
      simp only [List.length_cons]
      rw [ih _ hok.2]

theorem evalLoop_uir_const (rec : Nat → Nat → ℚ)
    (roc : List Bool → List Bool → ℚ) (b : EvalBatch) (k : Nat) (L : ℚ)
    (st : EvalArrays) (us : List Nat) (u : Nat)
    (h : st.userItemRatings u
      = natsToFloats (topkIndices k (b.items.map (rec u)))) :
    (evalLoop rec roc b k L st us).1.userItemRatings u
      = natsToFloats (topkIndices k (b.items.map (rec u))) := by
  induction us generalizing st with
  | nil => exact h
  | cons v vs ih =>
    by_cases herr : (evalIter rec roc b k L st v).2 = IterResult.nameError
    · rw [evalLoop_cons_error rec roc b k L st v vs herr]
      exact evalIter_uir_pres rec roc b k L st v u h
    · rw [evalLoop_cons_ok rec roc b k L st v vs herr]
      exact ih _ (evalIter_uir_pres rec roc b k L st v u h)

theorem evalLoop_tir_const (rec : Nat → Nat → ℚ)
    (roc : List Bool → List Bool → ℚ) (b : EvalBatch) (k : Nat) (L : ℚ)
    (st : EvalArrays) (us : List Nat) (u : Nat)
    (h : st.trueItemRatings u = natsToFloats (topkIndices k b.ratings)) :
    (evalLoop rec roc b k L st us).1.trueItemRatings u
      = natsToFloats (topkIndices k b.ratings) := by
  induction us generalizing st with
  | nil => exact h
  | cons v vs ih =>
    by_cases herr : (evalIter rec roc b k L st v).2 = IterResult.nameError
    · rw [evalLoop_cons_error rec roc b k L st v vs herr]
      exact evalIter_tir_pres rec roc b k L st v u h
    · rw [evalLoop_cons_ok rec roc b k L st v vs herr]
      exact ih _ (evalIter_tir_pres rec roc b k L st v u h)

theorem evalLoop_uir_take (rec : Nat → Nat → ℚ)
    (roc : List Bool → List Bool → ℚ) (b : EvalBatch) (k : Nat) (L : ℚ)
    (st : EvalArrays) (us : List Nat) (u : Nat)
    (hu : u ∈ us.take (evalLoop rec roc b k L st us).2.length) :
    (evalLoop rec roc b k L st us).1.userItemRatings u
      = natsToFloats (topkIndices k (b.items.map (rec u))) := by
  induction us generalizing st with
  | nil => simp at hu
  | cons v vs ih =>
    by_cases herr : (evalIter rec roc b k L st v).2 = IterResult.nameError
    · rw [evalLoop_cons_error rec roc b k L st v vs herr] at hu ⊢
      have huv : u = v := by simpa using hu
      subst huv
      rw [evalIter_fst]
      show writeRow st.userItemRatings u
        (natsToFloats (topkIndices k (b.items.map (rec u)))) u = _
      simp [writeRow]
    · rw [evalLoop_cons_ok rec roc b k L st v vs herr] at hu ⊢
      simp only [List.length_cons, List.take_succ_cons, List.mem_cons] at hu
      rcases hu with h | h
      · subst h
        refine evalLoop_uir_const rec roc b k L _ vs u ?_
        rw [evalIter_fst]
        show writeRow st.userItemRatings u
          (natsToFloats (topkIndices k (b.items.map (rec u)))) u = _
        simp [writeRow]
      · exact ih _ h

theorem evalLoop_tir_take (rec : Nat → Nat → ℚ)
    (roc : List Bool → List Bool → ℚ) (b : EvalBatch) (k : Nat) (L : ℚ)
    (st : EvalArrays) (us : List Nat) (u : Nat)
    (hu : u ∈ us.take (evalLoop rec roc b k L st us).2.length) :
    (evalLoop rec roc b k L st us).1.trueItemRatings u
      = natsToFloats (topkIndices k b.ratings) := by
  induction us generalizing st with
  | nil => simp at hu
  | cons v vs ih =>
    by_cases herr : (evalIter rec roc b k L st v).2 = IterResult.nameError
    · rw [evalLoop_cons_error rec roc b k L st v vs herr] at hu ⊢
      have huv : u = v := by simpa using hu
      subst huv
      rw [evalIter_fst]
      show writeRow st.trueItemRatings u
        (natsToFloats (topkIndices k b.ratings)) u = _
      simp [writeRow]
    · rw [evalLoop_cons_ok rec roc b k L st v vs herr] at hu ⊢
      simp only [List.length_cons, List.take_succ_cons, List.mem_cons] at hu
      rcases hu with h | h
      · subst h
        refine evalLoop_tir_const rec roc b k L _ vs u ?_
        rw [evalIter_fst]
        show writeRow st.trueItemRatings u
          (natsToFloats (topkIndices k b.ratings)) u = _
        simp [writeRow]
      · exact ih _ h

theorem evalIter_ndcg_args (rec : Nat → Nat → ℚ)
    (roc : List Bool → List Bool → ℚ) (b : EvalBatch) (k : Nat) (L : ℚ)
    (st : EvalArrays) (u : Nat) :
    ndcgArgsEqual (evalIter rec roc b k L st u).2 := by
  simp only [evalIter]
  split
  · trivial
  · rfl

theorem evalLoop_ndcg_args (rec : Nat → Nat → ℚ)
    (roc : List Bool → List Bool → ℚ) (b : EvalBatch) (k : Nat) (L : ℚ)
    (st : EvalArrays) (us : List Nat) (e : IterResult)
    (he : e ∈ (evalLoop rec roc b k L st us).2) : ndcgArgsEqual e := by
  induction us generalizing st with
  | nil => cases he
  | cons v vs ih =>
    by_cases herr : (evalIter rec roc b k L st v).2 = IterResult.nameError
    · rw [evalLoop_cons_error rec roc b k L st v vs herr] at he
      have : e = IterResult.nameError := by simpa using he
      rw [this]
      trivial
    · rw [evalLoop_cons_ok rec roc b k L st v vs herr] at he
      rcases List.mem_cons.mp he with h | h
      · exact h ▸ evalIter_ndcg_args rec roc b k L st v
      · exact ih _ h

/-- C1, counterexample to the claim as stated: in the two-row batch batchA,
the ground-truth top-1 list that eval_step assigns to user 0 is not the
top-1 list of the rows user 0 rated; it points at row 1, which belongs to
user 1. -/
theorem eval_step_true_topk_not_per_user :
    (eval_step lossA recA rocA batchA 1 garbA garbA).1.trueItemRatings 0
        ≠ natsToFloats (claimPerUserTopK batchA 1 0)
      ∧ (eval_step lossA recA rocA batchA 1 garbA garbA).1.trueItemRatings 0
        = [(1 : ℚ)]
      ∧ batchA.users.getD 1 0 = 1 := by
  refine ⟨?_, by decide, by decide⟩
  decide

/-- C1, amended: for every user in the prefix of the users column that the
per-user loop actually processes (one user per recorded outcome, the whole
batch whenever no NameError aborts the loop), the predicted top-k row
written into user_item_ratings holds the indices of the k items of the
batch with the highest model scores for that user, while the ground-truth
top-k row written into true_item_ratings holds the indices of the k
highest entries of the batch-wide ratings tensor, irrespective of the
user. -/
theorem eval_step_topk_rows (lossFn : List ℚ → List ℚ → ℚ)
    (rec : Nat → Nat → ℚ) (roc : List Bool → List Bool → ℚ) (b : EvalBatch)
    (k : Nat) (gU gT : Nat → List ℚ) (u : Nat)
    (hu : u ∈ b.users.take (eval_step lossFn rec roc b k gU gT).2.length) :
    (eval_step lossFn rec roc b k gU gT).1.userItemRatings u
        = natsToFloats (topkIndices k (b.items.map (rec u)))
      ∧ (eval_step lossFn rec roc b k gU gT).1.trueItemRatings u
        = natsToFloats (topkIndices k b.ratings) :=
  ⟨evalLoop_uir_take rec roc b k _ ⟨gU, gT, none⟩ b.users u hu,
    evalLoop_tir_take rec roc b k _ ⟨gU, gT, none⟩ b.users u hu⟩

/-- Witness for eval_step_topk_rows at the concrete batch batchA (whose
run processes both users) and user 0. -/
theorem eval_step_topk_rows_witness :
    (eval_step lossA recA rocA batchA 1 garbA garbA).1.userItemRatings 0
        = natsToFloats (topkIndices 1 (batchA.items.map (recA 0)))
      ∧ (eval_step lossA recA rocA batchA 1 garbA garbA).1.trueItemRatings 0
        = natsToFloats (topkIndices 1 batchA.ratings) :=
  eval_step_topk_rows lossA recA rocA batchA 1 garbA garbA 0 (by decide)

/-- C2: in every iteration of the per-user loop that builds the log_dict,
the array passed to ndcg_score as the reference equals the array passed as
the predictions: both are built by the same comprehension over
user_item_ratings, so the reference is not derived from the ground-truth
top-k lists. -/
theorem eval_step_ndcg_ref_is_preds (lossFn : List ℚ → List ℚ → ℚ)
    (rec : Nat → Nat → ℚ) (roc : List Bool → List Bool → ℚ) (b : EvalBatch)
    (k : Nat) (gU gT : Nat → List ℚ) (e : IterResult)
    (he : e ∈ (eval_step lossFn rec roc b k gU gT).2) : ndcgArgsEqual e :=
  evalLoop_ndcg_args rec roc b k _ ⟨gU, gT, none⟩ b.users e he

/-- Witness for eval_step_ndcg_ref_is_preds: the first logged iteration of
the concrete batch batchA passes [0, 3] as both ndcg_score arguments. -/
theorem eval_step_ndcg_ref_is_preds_witness :
    ndcgArgsEqual (IterResult.logged 0 [0, 3] [0, 3] (1 / 2)) :=
  eval_step_ndcg_ref_is_preds lossA recA rocA batchA 1 garbA garbA
    (IterResult.logged 0 [0, 3] [0, 3] (1 / 2)) (List.Mem.head _)

/-- C3, counterexample to the claim as stated: on the two-user batch
batchA, eval_step builds and logs the metrics dict twice, once per user
iteration, not once per batch after all users have been processed. -/
theorem eval_step_metrics_not_once :
    (eval_step lossA recA rocA batchA 1 garbA garbA).2.length = 2
      ∧ (eval_step lossA recA rocA batchA 1 garbA garbA).2.length ≠ 1 := by
  constructor
  · decide
  · decide

/-- C3, amended: eval_step builds a full metrics record (eval loss, ndcg,
novelty, coverages, personalization, roc_auc) inside the per-user loop,
once per processed user iteration, rather than once per batch; in a run
that no NameError aborts, that is exactly one metrics computation per row
of the users column. -/
theorem eval_step_metrics_once_per_user (lossFn : List ℚ → List ℚ → ℚ)
    (rec : Nat → Nat → ℚ) (roc : List Bool → List Bool → ℚ) (b : EvalBatch)
    (k : Nat) (gU gT : Nat → List ℚ)
    (hok : hasNameError (eval_step lossFn rec roc b k gU gT).2 = false) :
    (eval_step lossFn rec roc b k gU gT).2.length = b.users.length :=
  evalLoop_length_ok rec roc b k _ ⟨gU, gT, none⟩ b.users hok

/-- Witness for eval_step_metrics_once_per_user: the run on batchA logs
both iterations without a NameError, giving two metric computations for
the two users. -/
theorem eval_step_metrics_once_per_user_witness :
    (eval_step lossA recA rocA batchA 1 garbA garbA).2.length
      = batchA.users.length :=
  eval_step_metrics_once_per_user lossA recA rocA batchA 1 garbA garbA
    (by decide)

/-- C8: when, on the first iteration of the per-user loop, the guard that
both boolean arrays contain both classes is false, roc_auc is never
assigned and building the log_dict fails with a NameError. -/
theorem eval_step_roc_auc_name_error (lossFn : List ℚ → List ℚ → ℚ)
    (rec : Nat → Nat → ℚ) (roc : List Bool → List Bool → ℚ) (b : EvalBatch)
    (k : Nat) (gU gT : Nat → List ℚ) (u : Nat) (us : List Nat)
    (husers : b.users = u :: us)
    (hguard :
      (hasBothClasses (toBools (flattenRows
          (writeRow gU u (natsToFloats (topkIndices k (b.items.map (rec u)))))
          (maxUserId b)))
        && hasBothClasses (toBools (flattenRows
          (writeRow gU u (natsToFloats (topkIndices k (b.items.map (rec u)))))
          (maxUserId b)))) = false) :
    (eval_step lossFn rec roc b k gU gT).2.head?
      = some IterResult.nameError := by
  show (evalLoop rec roc b k
      (lossFn ((b.users.zip b.items).map (fun p => rec p.1 p.2)) b.ratings)
      ⟨gU, gT, none⟩ b.users).2.head? = some IterResult.nameError
  generalize lossFn ((b.users.zip b.items).map (fun p => rec p.1 p.2))
    b.ratings = L0
  rw [husers]
  have hstep : (evalIter rec roc b k L0 ⟨gU, gT, none⟩ u).2
      = IterResult.nameError := by
    simp only [evalIter, hguard, Bool.false_eq_true, if_false]
  rw [evalLoop_cons_error rec roc b k L0 ⟨gU, gT, none⟩ u us hstep]
  rfl

/-- Witness for eval_step_roc_auc_name_error: on the single-row batch
batchB the flattened prediction array is [0], which casts to a single-class
boolean array, so the very first iteration raises NameError. -/
theorem eval_step_roc_auc_name_error_witness :
    (eval_step lossA recA rocA batchB 1 garbB garbB).2.head?
      = some IterResult.nameError :=
  eval_step_roc_auc_name_error lossA recA rocA batchB 1 garbB garbB 0 []
    rfl (by decide)

/-- C9, counterexample to the claim as stated: with garbage gUC whose rows
flatten to a single boolean class, the first iteration of batchA raises
NameError and eval_step aborts, so no ground-truth row is ever written for
user 1: its row keeps the np.empty garbage gTC 1 = [9], which differs from
the row [1] written for user 0, even though both users are in the batch. -/
theorem eval_step_true_topk_aborted_differs :
    (eval_step lossA recA rocA batchA 1 gUC gTC).1.trueItemRatings 0
        ≠ (eval_step lossA recA rocA batchA 1 gUC gTC).1.trueItemRatings 1
      ∧ (0 : Nat) ∈ batchA.users ∧ (1 : Nat) ∈ batchA.users
      ∧ (eval_step lossA recA rocA batchA 1 gUC gTC).2
        = [IterResult.nameError] := by
  refine ⟨by decide, by decide, by decide, by decide⟩

/-- C9, amended: the ground-truth top-k row is computed from the batch-wide
ratings tensor without reference to the current user, so any two users for
which the loop actually writes a row (any two users of the batch whenever
no NameError aborts the loop) receive equal ground-truth top-k vectors; a
user the abort leaves unprocessed keeps its np.empty garbage row instead. -/
theorem eval_step_true_topk_user_independent (lossFn : List ℚ → List ℚ → ℚ)
    (rec : Nat → Nat → ℚ) (roc : List Bool → List Bool → ℚ) (b : EvalBatch)
    (k : Nat) (gU gT : Nat → List ℚ) (u1 u2 : Nat)
    (h1 : u1 ∈ b.users.take (eval_step lossFn rec roc b k gU gT).2.length)
    (h2 : u2 ∈ b.users.take (eval_step lossFn rec roc b k gU gT).2.length) :
    (eval_step lossFn rec roc b k gU gT).1.trueItemRatings u1
      = (eval_step lossFn rec roc b k gU gT).1.trueItemRatings u2 :=
  (evalLoop_tir_take rec roc b k _ ⟨gU, gT, none⟩ b.users u1 h1).trans
    (evalLoop_tir_take rec roc b k _ ⟨gU, gT, none⟩ b.users u2 h2).symm

/-- Witness for eval_step_true_topk_user_independent: the run on batchA
processes both users and writes them the same ground-truth top-1 row. -/
theorem eval_step_true_topk_user_independent_witness :
    (eval_step lossA recA rocA batchA 1 garbA garbA).1.trueItemRatings 0
      = (eval_step lossA recA rocA batchA 1 garbA garbA).1.trueItemRatings 1 :=
  eval_step_true_topk_user_independent lossA recA rocA batchA 1 garbA garbA
    0 1 (by decide) (by decide)

/-- C4: training_step returns exactly the configured loss function applied
to the (squeezed) model predictions on the batch and the ground-truth
ratings of that batch, logs that same loss to wandb exactly when the flag
is on, and leaves the batch unchanged. -/
theorem training_step_loss_spec (lossFn : List ℚ → List ℚ → ℚ)
    (recommender : TrainBatch → List (List ℚ)) (useWandb : Bool)
    (batch : TrainBatch) :
    (training_step lossFn recommender useWandb batch).loss
        = lossFn (squeezeCol (recommender batch)) batch.ratings
      ∧ (training_step lossFn recommender useWandb batch).batchAfter = batch
      ∧ (training_step lossFn recommender useWandb batch).logs
        = (if useWandb then
            [WandbLog.trainLoss
              (lossFn (squeezeCol (recommender batch)) batch.ratings)]
          else []) :=
  ⟨rfl, rfl, rfl⟩

/-- C5: the driver constructs the five components in the order of the
driver cell (dataset with its dataloaders, model, recommender module,
optimizer, scheduler), runs exactly numEpochs training epochs after the
construction, and touches wandb exactly when use_wandb is true. -/
theorem driver_trace_spec (w : Bool) (n : Nat) :
    (driverTrace w n).filter isConstructEvent
        = [DriverEvent.constructDataset, DriverEvent.constructModel,
            DriverEvent.constructModule, DriverEvent.constructOptimizer,
            DriverEvent.constructScheduler]
      ∧ ((driverTrace w n).filter isEpochEvent).length = n
      ∧ (DriverEvent.wandbInit ∈ driverTrace w n ↔ w = true)
      ∧ driverTrace w n
        = constructionTrace w ++ (List.range n).map DriverEvent.runEpoch := by
  have hc : (List.filter isConstructEvent
      ((List.range n).map DriverEvent.runEpoch)) = [] := by
    rw [List.filter_eq_nil_iff]
    intro e he
    rcases List.mem_map.mp he with ⟨i, _, rfl⟩
    simp [isConstructEvent]
  have he : (List.filter isEpochEvent
      ((List.range n).map DriverEvent.runEpoch))
      = (List.range n).map DriverEvent.runEpoch := by
    rw [List.filter_eq_self]
    intro e hm
    rcases List.mem_map.mp hm with ⟨i, _, rfl⟩
    simp [isEpochEvent]
  have hw : DriverEvent.wandbInit ∉ (List.range n).map DriverEvent.runEpoch := by
    intro hm
    rcases List.mem_map.mp hm with ⟨i, _, h⟩
    cases h
  cases w <;>
    refine ⟨?_, ?_, ?_, rfl⟩ <;>
    simp [driverTrace, constructionTrace, List.filter_append, hc, he,
      isConstructEvent, isEpochEvent, hw]

/-- C7: the constructor selects the BCE loss exactly when the rating format
is BINARY and the architecture is not MATRIX_FACTORIZATION, and the MSE
loss in every other configuration. -/
theorem loss_fn_selection (rf : RatingFormat) (ma : ModelArchitecture)
    (w : Bool) :
    ((RecommenderModule.init rf ma w).lossFn = LossKind.BCE
        ↔ (rf = RatingFormat.BINARY
            ∧ ma ≠ ModelArchitecture.MATRIX_FACTORIZATION))
      ∧ ((RecommenderModule.init rf ma w).lossFn = LossKind.MSE
        ↔ ¬(rf = RatingFormat.BINARY
            ∧ ma ≠ ModelArchitecture.MATRIX_FACTORIZATION)) := by
  cases rf <;> cases ma <;> simp [RecommenderModule.init]

/-- Unfolding lemma: a view of the empty flattening is empty. -/
theorem viewRows_nil (c : Nat) : viewRows c ([] : List β) = [] := by
  cases c <;> simp [viewRows]

/-- Unfolding lemma for viewRows on a nonempty list and positive width. -/
theorem viewRows_cons (m : Nat) (y : β) (L : List β) :
    viewRows (m + 1) (y :: L)
      = (y :: L).take (m + 1) :: viewRows (m + 1) ((y :: L).drop (m + 1)) := by
  simp [viewRows]

/-- With at least one embedded column, the first embedded column has one
row per example, which is the length torch.stack reads off. -/
theorem headD_featureEmbeddings_length (M : EmbModel κ α)
    (features : List (List Nat)) (hm : 0 < M.embColumns.length) :
    ((featureEmbeddings M features).headD []).length = features.length := by
  cases hcol : M.embColumns with
  | nil => rw [hcol] at hm; cases hm
  | cons c cs => simp [featureEmbeddings, hcol, List.enum_cons]

/-- Stacking the embedded columns along dim 1 yields, per example, the
list of that example's per-feature embedding vectors. -/
theorem stackDim1_featureEmbeddings (M : EmbModel κ α)
    (features : List (List Nat)) (hm : 0 < M.embColumns.length) :
    stackDim1 (featureEmbeddings M features)
      = features.map (fun row =>
          M.embColumns.enum.map (fun p => M.embDict p.2 (row.getD p.1 0))) := by
  apply List.ext_get
  · rw [stackDim1, List.length_map, List.length_range,
      headD_featureEmbeddings_length M features hm, List.length_map]
  · intro r h1 h2
    have hr : r < features.length := by
      rw [stackDim1, List.length_map, List.length_range,
        headD_featureEmbeddings_length M features hm] at h1
      exact h1
    simp only [stackDim1, List.get_eq_getElem, List.getElem_map,
      List.getElem_range]
    rw [featureEmbeddings, List.map_map]
    apply List.map_congr_left
    intro p _
    simp only [Function.comp_apply]
    rw [List.getD_eq_getElem _ _ (by simpa using hr), List.getElem_map]

/-- Flattening a list of lists of constant length c multiplies the length
by c. -/
theorem flatten_length_const {l : List (List α)} {c : Nat}
    (h : ∀ x ∈ l, x.length = c) : l.flatten.length = l.length * c := by
  induction l with
  | nil => simp
  | cons x xs ih =>
    have hx := h x (List.Mem.head _)
    have ihx := ih (fun y hy => h y (List.Mem.tail _ hy))
    simp only [List.flatten_cons, List.length_append, List.length_cons, hx, ihx]
    ring

/-- Viewing the row-major flattening of rows of constant positive length c
as rows of length c recovers the rows. -/
theorem viewRows_flatten {c : Nat} (hc : 0 < c) (l : List (List β))
    (h : ∀ x ∈ l, x.length = c) : viewRows c l.flatten = l := by
  induction l with
  | nil => exact viewRows_nil c
  | cons x xs ih =>
    obtain ⟨m, rfl⟩ : ∃ m, c = m + 1 := ⟨c - 1, by omega⟩
    have hx : x.length = m + 1 := h x (List.Mem.head _)
    have hxne : x ≠ [] := by
      intro he
      rw [he] at hx
      cases hx
    obtain ⟨y, ys, rfl⟩ := List.exists_cons_of_ne_nil hxne
    rw [List.flatten_cons, List.cons_append, viewRows_cons,
      ← List.cons_append, List.take_left' hx, List.drop_left' hx]
    exact congrArg _ (ih (fun z hz => h z (List.Mem.tail _ hz)))

/-- C6: when every embedding vector has length d, there is at least one
embedded column and emb_in_size is the number of columns times d, then
get_feature_embeddings with concat=True returns one row per example whose
content is the concatenation of the embedding vectors of that example's
feature ids (so the shape is (n, m*d)), and with concat=False returns the
per-feature embeddings stacked along a feature axis. -/
theorem get_feature_embeddings_spec (M : EmbModel κ α)
    (features : List (List Nat)) (d : Nat) (hd : 0 < d)
    (hm : 0 < M.embColumns.length)
    (hlen : ∀ c id, (M.embDict c id).length = d)
    (hsize : M.embInSize = M.embColumns.length * d) :
    get_feature_embeddings M features
        = features.map (fun row =>
            (M.embColumns.enum.map
              (fun p => M.embDict p.2 (row.getD p.1 0))).flatten)
      ∧ (get_feature_embeddings M features).length = features.length
      ∧ (∀ r ∈ get_feature_embeddings M features,
          r.length = M.embColumns.length * d)
      ∧ get_feature_embeddings_noconcat M features
        = features.map (fun row =>
            M.embColumns.enum.map (fun p => M.embDict p.2 (row.getD p.1 0))) := by
  have hstack := stackDim1_featureEmbeddings M features hm
  have hrowlen : ∀ row : List Nat,
      ((M.embColumns.enum.map
        (fun p => M.embDict p.2 (row.getD p.1 0))).flatten).length
        = M.embColumns.length * d := by
    intro row
    rw [flatten_length_const (c := d) ?_, List.length_map, List.enum_length]
    intro x hx
    rcases List.mem_map.mp hx with ⟨p, _, rfl⟩
    exact hlen p.2 (row.getD p.1 0)
  have hmain : get_feature_embeddings M features
      = features.map (fun row =>
          (M.embColumns.enum.map
            (fun p => M.embDict p.2 (row.getD p.1 0))).flatten) := by
    rw [get_feature_embeddings, hstack, List.flatten_flatten, List.map_map,
      hsize]
    apply viewRows_flatten (Nat.mul_pos hm hd)
    intro x hx
    rcases List.mem_map.mp hx with ⟨row, _, rfl⟩
    exact hrowlen row
  refine ⟨hmain, ?_, ?_, ?_⟩
  · rw [hmain, List.length_map]
  · intro r hr
    rw [hmain] at hr
    rcases List.mem_map.mp hr with ⟨row, _, rfl⟩
    exact hrowlen row
  · rw [get_feature_embeddings_noconcat, hstack]

/-- Witness for get_feature_embeddings_spec at the concrete model embModelA
(two columns, dimension 2, emb_in_size 4) and the two-example feature
matrix featuresA. -/
theorem get_feature_embeddings_spec_witness :
    get_feature_embeddings embModelA featuresA
        = featuresA.map (fun row =>
            (embModelA.embColumns.enum.map
              (fun p => embModelA.embDict p.2 (row.getD p.1 0))).flatten)
      ∧ (get_feature_embeddings embModelA featuresA).length = featuresA.length
      ∧ (∀ r ∈ get_feature_embeddings embModelA featuresA,
          r.length = embModelA.embColumns.length * 2)
      ∧ get_feature_embeddings_noconcat embModelA featuresA
        = featuresA.map (fun row =>
            embModelA.embColumns.enum.map
              (fun p => embModelA.embDict p.2 (row.getD p.1 0))) :=
  get_feature_embeddings_spec embModelA featuresA 2 (by decide) (by decide)
    (fun _ _ => rfl) (by decide)
